import Mathlib

/-!
Verification of the streaming chat transport and media-timestamp
synchronization core of the document Q&A frontend.

The definitions below are shallow embeddings of the TypeScript source:
- `parseTimestampLinks` embeds the regex scanner of
  `ChatInterface.tsx` (`parseTimestampLinks`, regex
  `\[(\d{1,2}):(\d{2})(?::(\d{2}))?\]` with global scan).
- `handleSeekToTimestamp` / `mediaSeekEffect` embed the seek
  coordination between `App.tsx` (`handleSeekToTimestamp`,
  `seekTimestamp` state) and `MediaPlayer.tsx` (the seek `useEffect`
  keyed on `[seekToTimestamp, isReady]`), together with React's
  set-state bail-out on identical values and effect-dependency
  comparison.
- `ClientState`, `connect`, `sendMessage`, `onmessage`, the open/close
  event handlers and the `ChatInterface` callbacks (`handleMessage`,
  `handleError`, `handleComplete`, `handleSubmit`) embed
  `useWebSocket.ts` and `ChatInterface.tsx` as one event-step machine.
- `pollCycle` embeds the document status polling effect of `App.tsx`.
-/

/-! ## Timestamp grammar (ChatInterface.tsx, parseTimestampLinks) -/

/-- Numeric value of a decimal digit character. -/
def digitVal (c : Char) : Nat := c.toNat - '0'.toNat

/-- First capture group of the regex: `\d{1,2}` followed by `:`, greedy
(two digits preferred, backtracking to one).  Returns the group value,
the number of characters consumed (including the colon) and the rest. -/
def matchG1 : List Char → Option (Nat × Nat × List Char)
  | a :: b :: c :: more =>
    if a.isDigit && b.isDigit && c == ':' then
      some (10 * digitVal a + digitVal b, 3, more)
    else if a.isDigit && b == ':' then
      some (digitVal a, 2, c :: more)
    else none
  | [a, b] =>
    if a.isDigit && b == ':' then some (digitVal a, 2, [])
    else none
  | _ => none

/-- Attempt to match `\[(\d{1,2}):(\d{2})(?::(\d{2}))?\]` at the head of
the character list; on success returns the match length and the seconds
value computed as in the source (`H*3600 + M*60 + S` with three groups,
`M*60 + S` with two). -/
def matchAt (cs : List Char) : Option (Nat × Nat) :=
  match cs with
  | '[' :: rest =>
    match matchG1 rest with
    | some (g1, l1, rest2) =>
      match rest2 with
      | c :: d :: rest3 =>
        if c.isDigit && d.isDigit then
          match rest3 with
          | ':' :: e :: f :: ']' :: _ =>
            if e.isDigit && f.isDigit then
              some (1 + l1 + 2 + 4,
                g1 * 3600 + (10 * digitVal c + digitVal d) * 60
                  + (10 * digitVal e + digitVal f))
            else none
          | ']' :: _ =>
            some (1 + l1 + 2 + 1, g1 * 60 + (10 * digitVal c + digitVal d))
          | _ => none
        else none
      | _ => none
    | none => none
  | _ => none

/-- Left-to-right scan: at each position try the regex match; on success
emit the matched literal with its seconds and resume after the match
(non-overlapping, order of appearance), otherwise advance one character.
The fuel argument bounds the recursion and is always sufficient when it
is at least the length of the list. -/
def scanTimestamps (fuel : Nat) (cs : List Char) : List (String × Nat) :=
  match fuel, cs with
  | fuel + 1, c :: rest =>
    (match matchAt (c :: rest) with
     | some (len, secs) =>
       (String.mk ((c :: rest).take len), secs) :: scanTimestamps fuel ((c :: rest).drop len)
     | none => scanTimestamps fuel rest)
  | _, _ => []

/-- Embedding of `parseTimestampLinks` from `ChatInterface.tsx`: all
non-overlapping timestamp markers of the text, left to right, each with
its matched literal and seconds value. -/
def parseTimestampLinks (text : String) : List (String × Nat) :=
  scanTimestamps text.data.length text.data

/-- Decimal value of a digit group. -/
def digitsVal (l : List Char) : Nat := l.foldl (fun a c => 10 * a + digitVal c) 0

/-- Every member of the list is a decimal digit. -/
def allDigits (l : List Char) : Prop := ∀ c ∈ l, c.isDigit = true

/-- Independent grammar of a timestamp marker, written from the spec
rather than from the code: the literal is a bracketed group list of the
form hour-colon-minute or hour-colon-minute-colon-second, with a 1-2
digit hour group and exactly 2-digit minute/second groups; the seconds
value is M*60+S with two groups and H*3600+M*60+S with three. -/
def SpecMarker (lit : List Char) (secs : Nat) : Prop :=
  (∃ h m, (h.length = 1 ∨ h.length = 2) ∧ m.length = 2 ∧
    allDigits h ∧ allDigits m ∧
    lit = '[' :: (h ++ ':' :: m ++ [']']) ∧
    secs = digitsVal h * 60 + digitsVal m) ∨
  (∃ h m s, (h.length = 1 ∨ h.length = 2) ∧ m.length = 2 ∧ s.length = 2 ∧
    allDigits h ∧ allDigits m ∧ allDigits s ∧
    lit = '[' :: (h ++ ':' :: m ++ ':' :: s ++ [']']) ∧
    secs = digitsVal h * 3600 + digitsVal m * 60 + digitsVal s)

/-- No marker of the grammar starts at the head of this suffix. -/
def NoMarkerAt (cs : List Char) : Prop :=
  ¬ ∃ lit secs rest, SpecMarker lit secs ∧ cs = lit ++ rest

/-- Declarative characterization, from the spec, of "every
non-overlapping marker of the text, scanned left to right in order of
appearance, each paired with its matched literal and its computed
seconds": each position is either skipped because no marker of the
grammar starts there, or emits the marker starting there and resumes
immediately after it. -/
inductive ScanSpec : List Char → List (String × Nat) → Prop
  | nil : ScanSpec [] []
  | skip {c : Char} {cs : List Char} {L : List (String × Nat)} :
      NoMarkerAt (c :: cs) → ScanSpec cs L → ScanSpec (c :: cs) L
  | found {lit : List Char} {secs : Nat} {rest : List Char} {L : List (String × Nat)} :
      SpecMarker lit secs → ScanSpec rest L →
      ScanSpec (lit ++ rest) ((String.mk lit, secs) :: L)

theorem digitsVal_one (a : Char) : digitsVal [a] = digitVal a := by
  simp [digitsVal]

theorem digitsVal_two (a b : Char) : digitsVal [a, b] = 10 * digitVal a + digitVal b := by
  simp [digitsVal]

theorem allDigits_one {a : Char} (ha : a.isDigit = true) : allDigits [a] := by
  intro x hx
  simp at hx
  subst hx
  exact ha

theorem allDigits_two {a b : Char} (ha : a.isDigit = true) (hb : b.isDigit = true) :
    allDigits [a, b] := by
  intro x hx
  rcases (by simpa using hx : x = a ∨ x = b) with rfl | rfl
  · exact ha
  · exact hb

theorem matchG1_one (a : Char) (rest : List Char) (ha : a.isDigit = true) :
    matchG1 (a :: ':' :: rest) = some (digitVal a, 2, rest) := by
  have hco : (':' : Char).isDigit = false := by decide
  cases rest with
  | nil => simp [matchG1, ha]
  | cons c more => simp [matchG1, ha, hco]

theorem matchG1_two (a b : Char) (rest : List Char) (ha : a.isDigit = true)
    (hb : b.isDigit = true) :
    matchG1 (a :: b :: ':' :: rest) = some (10 * digitVal a + digitVal b, 3, rest) := by
  simp [matchG1, ha, hb]

theorem matchAt_two_groups {rest : List Char} {g1 l1 : Nat} {c d : Char}
    {rest4 : List Char}
    (hg : matchG1 rest = some (g1, l1, c :: d :: ']' :: rest4))
    (hc : c.isDigit = true) (hd : d.isDigit = true) :
    matchAt ('[' :: rest) =
      some (1 + l1 + 2 + 1, g1 * 60 + (10 * digitVal c + digitVal d)) := by
  simp only [matchAt]
  rw [hg]
  simp [hc, hd]

theorem matchAt_three_groups {rest : List Char} {g1 l1 : Nat} {c d e f : Char}
    {rest4 : List Char}
    (hg : matchG1 rest = some (g1, l1, c :: d :: ':' :: e :: f :: ']' :: rest4))
    (hc : c.isDigit = true) (hd : d.isDigit = true)
    (he : e.isDigit = true) (hf : f.isDigit = true) :
    matchAt ('[' :: rest) =
      some (1 + l1 + 2 + 4,
        g1 * 3600 + (10 * digitVal c + digitVal d) * 60
          + (10 * digitVal e + digitVal f)) := by
  simp only [matchAt]
  rw [hg]
  simp [hc, hd, he, hf]

theorem matchG1_sound {l : List Char} {g len : Nat} {rest : List Char}
    (h : matchG1 l = some (g, len, rest)) :
    (∃ a, a.isDigit = true ∧ l = a :: ':' :: rest ∧ g = digitVal a ∧ len = 2) ∨
    (∃ a b, a.isDigit = true ∧ b.isDigit = true ∧ l = a :: b :: ':' :: rest ∧
      g = 10 * digitVal a + digitVal b ∧ len = 3) := by
  rcases l with _ | ⟨a, _ | ⟨b, _ | ⟨c, more⟩⟩⟩
  · exact absurd h (by simp [matchG1])
  · exact absurd h (by simp [matchG1])
  · simp only [matchG1] at h
    split at h
    · rename_i hcond
      simp only [Bool.and_eq_true, beq_iff_eq] at hcond
      obtain ⟨ha, rfl⟩ := hcond
      simp only [Option.some.injEq, Prod.mk.injEq] at h
      obtain ⟨rfl, rfl, rfl⟩ := h
      exact Or.inl ⟨a, ha, rfl, rfl, rfl⟩
    · simp at h
  · simp only [matchG1] at h
    split at h
    · rename_i hcond
      simp only [Bool.and_eq_true, beq_iff_eq] at hcond
      obtain ⟨⟨ha, hb⟩, rfl⟩ := hcond
      simp only [Option.some.injEq, Prod.mk.injEq] at h
      obtain ⟨rfl, rfl, rfl⟩ := h
      exact Or.inr ⟨a, b, ha, hb, rfl, rfl, rfl⟩
    · split at h
      · rename_i hcond2
        simp only [Bool.and_eq_true, beq_iff_eq] at hcond2
        obtain ⟨ha, rfl⟩ := hcond2
        simp only [Option.some.injEq, Prod.mk.injEq] at h
        obtain ⟨rfl, rfl, rfl⟩ := h
        exact Or.inl ⟨a, ha, rfl, rfl, rfl⟩
      · simp at h

theorem matchAt_ne_bracket {c0 : Char} {rest0 : List Char} (hne : c0 ≠ '[') :
    matchAt (c0 :: rest0) = none := by
  unfold matchAt
  split
  · rename_i heq
    cases heq
    exact absurd rfl hne
  · rfl

theorem matchAt_complete {lit : List Char} {secs : Nat} (hm : SpecMarker lit secs) :
    ∀ rest, matchAt (lit ++ rest) = some (lit.length, secs) := by
  intro rest
  rcases hm with ⟨h, m, hh, hm2, hdh, hdm, hlit, hsecs⟩ |
    ⟨h, m, s, hh, hm2, hs2, hdh, hdm, hds, hlit, hsecs⟩
  · obtain ⟨c, d, rfl⟩ := List.length_eq_two.mp hm2
    have hc : c.isDigit = true := hdm c (by simp)
    have hd : d.isDigit = true := hdm d (by simp)
    subst hlit
    rcases hh with h1 | h2
    · obtain ⟨a, rfl⟩ := List.length_eq_one.mp h1
      have ha : a.isDigit = true := hdh a (by simp)
      have hshape : ('[' :: ([a] ++ ':' :: [c, d] ++ [']'])) ++ rest =
          '[' :: (a :: ':' :: c :: d :: ']' :: rest) := by simp
      rw [hshape,
        matchAt_two_groups (matchG1_one a (c :: d :: ']' :: rest) ha) hc hd]
      simp only [Option.some.injEq, Prod.mk.injEq]
      constructor
      · simp
      · rw [hsecs, digitsVal_one, digitsVal_two]
    · obtain ⟨a, b, rfl⟩ := List.length_eq_two.mp h2
      have ha : a.isDigit = true := hdh a (by simp)
      have hb : b.isDigit = true := hdh b (by simp)
      have hshape : ('[' :: ([a, b] ++ ':' :: [c, d] ++ [']'])) ++ rest =
          '[' :: (a :: b :: ':' :: c :: d :: ']' :: rest) := by simp
      rw [hshape,
        matchAt_two_groups (matchG1_two a b (c :: d :: ']' :: rest) ha hb) hc hd]
      simp only [Option.some.injEq, Prod.mk.injEq]
      constructor
      · simp
      · rw [hsecs, digitsVal_two, digitsVal_two]
  · obtain ⟨c, d, rfl⟩ := List.length_eq_two.mp hm2
    obtain ⟨e, f, rfl⟩ := List.length_eq_two.mp hs2
    have hc : c.isDigit = true := hdm c (by simp)
    have hd : d.isDigit = true := hdm d (by simp)
    have he : e.isDigit = true := hds e (by simp)
    have hf : f.isDigit = true := hds f (by simp)
    subst hlit
    rcases hh with h1 | h2
    · obtain ⟨a, rfl⟩ := List.length_eq_one.mp h1
      have ha : a.isDigit = true := hdh a (by simp)
      have hshape : ('[' :: ([a] ++ ':' :: [c, d] ++ ':' :: [e, f] ++ [']'])) ++ rest =
          '[' :: (a :: ':' :: c :: d :: ':' :: e :: f :: ']' :: rest) := by simp
      rw [hshape,
        matchAt_three_groups
          (matchG1_one a (c :: d :: ':' :: e :: f :: ']' :: rest) ha) hc hd he hf]
      simp only [Option.some.injEq, Prod.mk.injEq]
      constructor
      · simp
      · rw [hsecs, digitsVal_one, digitsVal_two, digitsVal_two]
    · obtain ⟨a, b, rfl⟩ := List.length_eq_two.mp h2
      have ha : a.isDigit = true := hdh a (by simp)
      have hb : b.isDigit = true := hdh b (by simp)
      have hshape : ('[' :: ([a, b] ++ ':' :: [c, d] ++ ':' :: [e, f] ++ [']'])) ++ rest =
          '[' :: (a :: b :: ':' :: c :: d :: ':' :: e :: f :: ']' :: rest) := by simp
      rw [hshape,
        matchAt_three_groups
          (matchG1_two a b (c :: d :: ':' :: e :: f :: ']' :: rest) ha hb) hc hd he hf]
      simp only [Option.some.injEq, Prod.mk.injEq]
      constructor
      · simp
      · rw [hsecs, digitsVal_two, digitsVal_two, digitsVal_two]

theorem matchAt_sound {cs : List Char} {len secs : Nat}
    (h : matchAt cs = some (len, secs)) :
    ∃ lit rest, cs = lit ++ rest ∧ lit.length = len ∧ SpecMarker lit secs := by
  rcases cs with _ | ⟨c0, rest0⟩
  · exact absurd h (by simp [matchAt])
  · by_cases hc0 : c0 = '['
    · subst hc0
      simp only [matchAt] at h
      split at h
      · rename_i g1 l1 rest2 heq
        split at h
        · rename_i c d rest3
          split at h
          · rename_i hcd
            simp only [Bool.and_eq_true] at hcd
            obtain ⟨hc, hd⟩ := hcd
            split at h
            · rename_i e f tail
              split at h
              · rename_i hef
                simp only [Bool.and_eq_true] at hef
                obtain ⟨he, hf⟩ := hef
                simp only [Option.some.injEq, Prod.mk.injEq] at h
                obtain ⟨rfl, rfl⟩ := h
                rcases matchG1_sound heq with
                  ⟨a, ha, hr0, hg1, hl1⟩ | ⟨a, b, ha, hb, hr0, hg1, hl1⟩
                · refine ⟨['[', a, ':', c, d, ':', e, f, ']'], tail, ?_, ?_, ?_⟩
                  · rw [hr0]
                    rfl
                  · rw [hl1]
                    rfl
                  · refine Or.inr ⟨[a], [c, d], [e, f], Or.inl rfl, rfl, rfl,
                      allDigits_one ha, allDigits_two hc hd, allDigits_two he hf,
                      rfl, ?_⟩
                    rw [digitsVal_one, digitsVal_two, digitsVal_two, hg1]
                · refine ⟨['[', a, b, ':', c, d, ':', e, f, ']'], tail, ?_, ?_, ?_⟩
                  · rw [hr0]
                    rfl
                  · rw [hl1]
                    rfl
                  · refine Or.inr ⟨[a, b], [c, d], [e, f], Or.inr rfl, rfl, rfl,
                      allDigits_two ha hb, allDigits_two hc hd, allDigits_two he hf,
                      rfl, ?_⟩
                    rw [digitsVal_two, digitsVal_two, digitsVal_two, hg1]
              · simp at h
            · rename_i tail
              simp only [Option.some.injEq, Prod.mk.injEq] at h
              obtain ⟨rfl, rfl⟩ := h
              rcases matchG1_sound heq with
                ⟨a, ha, hr0, hg1, hl1⟩ | ⟨a, b, ha, hb, hr0, hg1, hl1⟩
              · refine ⟨['[', a, ':', c, d, ']'], tail, ?_, ?_, ?_⟩
                · rw [hr0]
                  rfl
                · rw [hl1]
                  rfl
                · refine Or.inl ⟨[a], [c, d], Or.inl rfl, rfl,
                    allDigits_one ha, allDigits_two hc hd, rfl, ?_⟩
                  rw [digitsVal_one, digitsVal_two, hg1]
              · refine ⟨['[', a, b, ':', c, d, ']'], tail, ?_, ?_, ?_⟩
                · rw [hr0]
                  rfl
                · rw [hl1]
                  rfl
                · refine Or.inl ⟨[a, b], [c, d], Or.inr rfl, rfl,
                    allDigits_two ha hb, allDigits_two hc hd, rfl, ?_⟩
                  rw [digitsVal_two, digitsVal_two, hg1]
            · simp at h
          · simp at h
        · simp at h
      · simp at h
    · rw [matchAt_ne_bracket hc0] at h
      cases h

theorem matchAt_none {cs : List Char} (h : matchAt cs = none) : NoMarkerAt cs := by
  rintro ⟨lit, secs, rest, hm, rfl⟩
  have hcontra := matchAt_complete hm rest
  rw [h] at hcontra
  cases hcontra

theorem specMarker_pos {lit : List Char} {secs : Nat} (h : SpecMarker lit secs) :
    1 ≤ lit.length := by
  rcases h with ⟨h1, m, _, _, _, _, hlit, _⟩ | ⟨h1, m, s, _, _, _, _, _, _, hlit, _⟩ <;>
    subst hlit <;> simp

/-- The fuelled scanner satisfies the declarative scan characterization
whenever the fuel covers the input length. -/
theorem scanTimestamps_spec : ∀ (fuel : Nat) (cs : List Char), cs.length ≤ fuel →
    ScanSpec cs (scanTimestamps fuel cs) := by
  intro fuel
  induction fuel with
  | zero =>
    intro cs hle
    have hnil : cs = [] := List.eq_nil_of_length_eq_zero (Nat.le_zero.mp hle)
    subst hnil
    exact ScanSpec.nil
  | succ fuel ih =>
    intro cs hle
    cases cs with
    | nil => exact ScanSpec.nil
    | cons c rest =>
      have hrest : rest.length ≤ fuel := by
        simp only [List.length_cons] at hle
        omega
      cases hma : matchAt (c :: rest) with
      | none =>
        have hred : scanTimestamps (fuel + 1) (c :: rest) = scanTimestamps fuel rest := by
          show (match matchAt (c :: rest) with
            | some (len, secs) =>
              (String.mk ((c :: rest).take len), secs) ::
                scanTimestamps fuel ((c :: rest).drop len)
            | none => scanTimestamps fuel rest) = scanTimestamps fuel rest
          rw [hma]
        rw [hred]
        exact ScanSpec.skip (matchAt_none hma) (ih rest hrest)
      | some p =>
        obtain ⟨len, secs⟩ := p
        obtain ⟨lit, rest2, hcs, hlitlen, hm⟩ := matchAt_sound hma
        have hred : scanTimestamps (fuel + 1) (c :: rest) =
            (String.mk ((c :: rest).take len), secs) ::
              scanTimestamps fuel ((c :: rest).drop len) := by
          show (match matchAt (c :: rest) with
            | some (len, secs) =>
              (String.mk ((c :: rest).take len), secs) ::
                scanTimestamps fuel ((c :: rest).drop len)
            | none => scanTimestamps fuel rest) = _
          rw [hma]
        have htake : (c :: rest).take len = lit := by
          rw [hcs, ← hlitlen]
          exact List.take_left lit rest2
        have hdrop : (c :: rest).drop len = rest2 := by
          rw [hcs, ← hlitlen]
          exact List.drop_left lit rest2
        have hlit1 : 1 ≤ lit.length := specMarker_pos hm
        have hr2 : rest2.length ≤ fuel := by
          have hlcs := congrArg List.length hcs
          simp only [List.length_cons, List.length_append] at hlcs
          omega
        rw [hred, htake, hdrop, hcs]
        exact ScanSpec.found hm (ih rest2 hr2)

/-- C4: for every input string the timestamp parser returns every
non-overlapping bracketed marker of the grammar, scanning left to right
in order of appearance, each paired with its matched literal and its
computed seconds (`ScanSpec`, stated against the independent grammar
`SpecMarker` written from the spec); in particular
`"see [1:23] and [01:02:03]"` yields `[1:23] ↦ 83` then
`[01:02:03] ↦ 3723` in that order, and malformed brackets (wrong digit
counts, missing colon, unclosed bracket) produce no match. -/
theorem C4_timestamp_grammar :
    (∀ s : String, ScanSpec s.data (parseTimestampLinks s)) ∧
    parseTimestampLinks "see [1:23] and [01:02:03]" =
      [("[1:23]", 83), ("[01:02:03]", 3723)] ∧
    parseTimestampLinks "[1:2]" = [] ∧
    parseTimestampLinks "[123:45]" = [] ∧
    parseTimestampLinks "[1:23:4]" = [] ∧
    parseTimestampLinks "[12-34]" = [] ∧
    parseTimestampLinks "see [1:23" = [] ∧
    parseTimestampLinks "a [0:07] b [10:20:30] c [9:59]" =
      [("[0:07]", 7), ("[10:20:30]", 37230), ("[9:59]", 599)] := by
  refine ⟨?_, by decide, by decide, by decide, by decide, by decide, by decide,
    by decide⟩
  intro s
  exact scanTimestamps_spec s.data.length s.data (Nat.le_refl _)

/-! ## Seek coordination (App.tsx + MediaPlayer.tsx) -/

/-- State shared between `App` and `MediaPlayer` that is relevant to
seek requests: the `seekTimestamp` React state of `App`, the
`isReady` flag of the player, the dependency tuple
`[seekToTimestamp, isReady]` recorded at the last run of the seek
effect, and the list of `seekTo` invocations issued so far. -/
structure SeekSt where
  seekTimestamp : Option Nat
  isReady : Bool
  lastDeps : Option Nat × Bool
  seeks : List Nat
deriving DecidableEq

/-- Body of the seek `useEffect` in `MediaPlayer.tsx`: when the player
is ready and the prop is a number, invoke `seekTo`. -/
def mediaSeekEffect (st : SeekSt) : SeekSt :=
  if st.isReady then
    match st.seekTimestamp with
    | some n => { st with seeks := st.seeks ++ [n] }
    | none => st
  else st

/-- Embedding of `handleSeekToTimestamp` in `App.tsx`
(`setSeekTimestamp(seconds)`) combined with React semantics: a state
update to an identical value bails out without re-rendering, and the
seek effect re-runs only when its dependency tuple differs from the one
recorded at its previous run. -/
def handleSeekToTimestamp (st : SeekSt) (n : Nat) : SeekSt :=
  if st.seekTimestamp = some n then st
  else
    let st1 : SeekSt := { st with seekTimestamp := some n }
    if st1.lastDeps = (some n, st1.isReady) then st1
    else mediaSeekEffect { st1 with lastDeps := (some n, st1.isReady) }

/-- State after mounting: no seek requested, the mount run of the seek
effect recorded its dependencies and issued no seek (the prop is null). -/
def initialSeekSt (ready : Bool) : SeekSt :=
  { seekTimestamp := none, isReady := ready, lastDeps := (none, ready), seeks := [] }

/-- Run a sequence of seek requests against the mounted player. -/
def runSeeks (ready : Bool) (reqs : List Nat) : SeekSt :=
  reqs.foldl handleSeekToTimestamp (initialSeekSt ready)

/-- C1: for every numeric value N, setting the Requested Seek Position
to N twice in succession causes two distinct seek invocations, never
suppressed by equality.  The code violates this: two consecutive
requests for N = 83 with the player ready produce exactly one `seekTo`
invocation, and in general a repeated identical request is absorbed (the
second application of `handleSeekToTimestamp` with the same value is the
identity), because `setSeekTimestamp` to the current value bails out and
the seek effect is keyed on the value changing. -/
theorem C1_repeated_seek_absorbed :
    (runSeeks true [83, 83]).seeks = [83] ∧
    (runSeeks true [83, 83]).seeks.length = 1 ∧
    ∀ (st : SeekSt) (n : Nat),
      handleSeekToTimestamp (handleSeekToTimestamp st n) n =
        handleSeekToTimestamp st n := by
  refine ⟨by decide, by decide, ?_⟩
  intro st n
  unfold handleSeekToTimestamp
  by_cases h1 : st.seekTimestamp = some n
  · simp [h1]
  · simp only [if_neg h1]
    by_cases h2 : st.lastDeps = (some n, st.isReady)
    · simp [h2]
    · simp only [if_neg h2]
      unfold mediaSeekEffect
      by_cases hr : st.isReady
      · simp [hr]
      · simp [hr]

/-! ## Streaming transport client and chat interface
(useWebSocket.ts + ChatInterface.tsx) -/

/-- readyState of the browser WebSocket as used by the source. -/
inductive ReadyState
  | CONNECTING
  | OPEN
  | CLOSED
deriving DecidableEq

/-- The `onopen` handler currently installed on the socket: either the
default one installed by `connect` (which sets `isConnected`), or the
replacement installed by the `CONNECTING` branch of `sendMessage`
(which sends the queued request and sets `isStreaming`). -/
inductive OpenHandler
  | installedByConnect
  | queuedSend (message : String) (includeTimestamps : Bool)
deriving DecidableEq

/-- A retrieval citation (types.ts, `Source`); only the fields the core
passes through. -/
structure Src where
  document_id : String := ""
  chunk_index : Nat := 0
  content : String := ""
deriving DecidableEq

/-- A transcription segment (types.ts, `TimestampSegment`). -/
structure TsSeg where
  start : Nat := 0
  stop : Nat := 0
  text : String := ""
deriving DecidableEq

/-- An inbound stream frame (types.ts, `StreamToken`): optional error,
optional token, done flag, optional sources and timestamps. -/
structure Frame where
  error : Option String := none
  token : Option String := none
  done : Bool := false
  sources : Option (List Src) := none
  timestamps : Option (List TsSeg) := none
deriving DecidableEq

/-- Chat message roles. -/
inductive Role
  | user
  | assistant
deriving DecidableEq

/-- A committed chat message (types.ts, `ChatMessage`). -/
structure ChatMessage where
  role : Role
  content : String
  sources : Option (List Src)
deriving DecidableEq

/-- Payload handed to `onComplete` by the socket message handler. -/
structure CompleteResponse where
  sources : List Src
  timestamps : List TsSeg
deriving DecidableEq

/-- Combined state of the `useWebSocket` hook and the `ChatInterface`
component.  `wsReady` is `wsRef.current` (`none` = null ref), with the
socket abstracted to its readyState; `openHandler` is the closure
currently assigned to `ws.onopen`; `liveCount` counts sockets created
and not yet closed; `sentFrames` records the request frames actually
transmitted; `streamingRef` is `streamingRef.current`;
`streamingContent` is the render-visible snapshot; `inputField` is the
text input state. -/
structure ClientState where
  wsReady : Option ReadyState
  openHandler : OpenHandler
  liveCount : Nat
  isConnected : Bool
  isStreaming : Bool
  sentFrames : List (String × Bool)
  messages : List ChatMessage
  streamingRef : String
  streamingContent : String
  errorMsg : Option String
  inputField : String
deriving DecidableEq

/-- State on first render, before the mount effect runs. -/
def initClient : ClientState :=
  { wsReady := none, openHandler := .installedByConnect, liveCount := 0,
    isConnected := false, isStreaming := false, sentFrames := [],
    messages := [], streamingRef := "", streamingContent := "",
    errorMsg := none, inputField := "" }

/-- Model of JavaScript `String.prototype.trim`: drop whitespace from
both ends (kernel-computable, unlike `String.trim`). -/
def jsTrim (s : String) : String :=
  String.mk (((s.data.dropWhile Char.isWhitespace).reverse.dropWhile Char.isWhitespace).reverse)

/-- `handleMessage` in ChatInterface.tsx: append the token to the ref
buffer and publish the new buffer value as the render snapshot. -/
def handleMessage (st : ClientState) (tok : String) : ClientState :=
  { st with streamingRef := st.streamingRef ++ tok,
            streamingContent := st.streamingRef ++ tok }

/-- `handleError` in ChatInterface.tsx: record the error message and
clear the render snapshot (the ref buffer is left untouched). -/
def handleError (st : ClientState) (e : String) : ClientState :=
  { st with errorMsg := some e, streamingContent := "" }

/-- `handleComplete` in ChatInterface.tsx: read the ref buffer, skip if
it is empty after trimming, otherwise append an immutable assistant
message and only then clear the buffer and the snapshot. -/
def handleComplete (st : ClientState) (resp : CompleteResponse) : ClientState :=
  if jsTrim st.streamingRef = "" then st
  else
    { st with
        messages := st.messages ++
          [{ role := .assistant, content := st.streamingRef, sources := some resp.sources }],
        streamingRef := "", streamingContent := "" }

/-- `connect` in useWebSocket.ts: no-op when a socket object already
exists (`if (wsRef.current) return`), otherwise create a fresh socket in
the CONNECTING state with the default handlers installed. -/
def connect (st : ClientState) : ClientState :=
  if st.wsReady.isSome then st
  else
    { st with wsReady := some .CONNECTING, openHandler := .installedByConnect,
              liveCount := st.liveCount + 1 }

/-- `ws.close()`: mark the socket closed; a no-op on an already closed
socket or when no socket exists. -/
def closeSocket (st : ClientState) : ClientState :=
  match st.wsReady with
  | some rs =>
    if rs = .CLOSED then st
    else { st with wsReady := some .CLOSED, liveCount := st.liveCount - 1 }
  | none => st

/-- `sendMessage` in useWebSocket.ts: reconnect if the socket is absent
or not open; fail with "WebSocket not ready" if still absent; defer the
send to `ws.onopen` (replacing the handler) and return true if the
socket is CONNECTING; fail with "WebSocket not connected" if it is not
open; otherwise mark streaming, transmit and return true. -/
def sendMessage (st : ClientState) (m : String) (its : Bool) : ClientState × Bool :=
  let st1 := if st.wsReady ≠ some .OPEN then connect st else st
  match st1.wsReady with
  | none => (handleError st1 "WebSocket not ready", false)
  | some .CONNECTING => ({ st1 with openHandler := .queuedSend m its }, true)
  | some .OPEN =>
    ({ st1 with isStreaming := true, sentFrames := st1.sentFrames ++ [(m, its)] }, true)
  | some .CLOSED => (handleError st1 "WebSocket not connected", false)

/-- JS truthiness of `data.error`: present and non-empty. -/
def frameErr (f : Frame) : Option String :=
  match f.error with
  | some e => if e = "" then none else some e
  | none => none

/-- `ws.onmessage` in useWebSocket.ts: an error frame surfaces the
error, stops streaming and closes the socket; a non-terminal frame with
a non-empty string token is delivered to `handleMessage`; a terminal
frame stops streaming, runs `handleComplete` with the supplied sources
and timestamps, then closes the socket. -/
def onmessage (st : ClientState) (f : Frame) : ClientState :=
  match frameErr f with
  | some e => closeSocket { handleError st e with isStreaming := false }
  | none =>
    let st1 :=
      match f.token with
      | some t => if !f.done && t.length > 0 then handleMessage st t else st
      | none => st
    if f.done then
      closeSocket
        (handleComplete { st1 with isStreaming := false }
          { sources := f.sources.getD [], timestamps := f.timestamps.getD [] })
    else st1

/-- `ws.onopen` firing on a CONNECTING socket: run whichever handler is
installed.  The default handler sets `isConnected`; the queued-send
replacement only sets `isStreaming` and transmits the queued frame. -/
def onopenFired (st : ClientState) : ClientState :=
  match st.wsReady with
  | some .CONNECTING =>
    match st.openHandler with
    | .installedByConnect =>
      { st with wsReady := some .OPEN, isConnected := true }
    | .queuedSend m its =>
      { st with wsReady := some .OPEN, isStreaming := true,
                sentFrames := st.sentFrames ++ [(m, its)] }
  | _ => st

/-- `ws.onclose` firing (server close, network drop, or following a
client `close()`): release the socket if it was still live, null the
ref and reset the connected/streaming flags. -/
def oncloseFired (st : ClientState) : ClientState :=
  match st.wsReady with
  | some rs =>
    { st with wsReady := none, isConnected := false, isStreaming := false,
              liveCount := if rs = .CLOSED then st.liveCount else st.liveCount - 1 }
  | none => st

/-- `disconnect` in useWebSocket.ts: close the socket if present, null
the ref, reset the flags. -/
def disconnect (st : ClientState) : ClientState :=
  let st1 := closeSocket st
  { st1 with wsReady := none, isConnected := false, isStreaming := false }

/-- `handleSubmit` in ChatInterface.tsx: ignore empty input or an
in-flight stream; otherwise append the user message, clear any error
and the snapshot, send, and clear the input field only when the send
reported success. -/
def handleSubmit (st : ClientState) : ClientState :=
  if jsTrim st.inputField = "" || st.isStreaming then st
  else
    let msg := jsTrim st.inputField
    let st1 := { st with
      messages := st.messages ++ [{ role := .user, content := msg, sources := none }],
      errorMsg := none, streamingContent := "" }
    let sr := sendMessage st1 msg true
    if sr.2 then { sr.1 with inputField := "" } else sr.1

/-- `ws.onerror` firing on an existing socket (the handler installed by
`connect`): surface the generic transport error message through the
`onError` callback; nothing else changes (the browser fires close
separately). -/
def onerrorFired (st : ClientState) : ClientState :=
  if st.wsReady.isSome then handleError st "WebSocket connection error" else st

/-- External events driving the client. -/
inductive Ev
  | connectCall
  | send (m : String) (its : Bool)
  | submit
  | openFired
  | closeFired
  | errorFired
  | frame (f : Frame)
  | disconnectCall
deriving DecidableEq

/-- One event step.  Frames are only delivered on an open socket. -/
def step (st : ClientState) (e : Ev) : ClientState :=
  match e with
  | .connectCall => connect st
  | .send m its => (sendMessage st m its).1
  | .submit => handleSubmit st
  | .openFired => onopenFired st
  | .closeFired => oncloseFired st
  | .errorFired => onerrorFired st
  | .frame f => if st.wsReady = some .OPEN then onmessage st f else st
  | .disconnectCall => disconnect st

/-- Run an event sequence from a given state. -/
def runFrom (st : ClientState) (evs : List Ev) : ClientState :=
  evs.foldl step st

/-- Run an event sequence from the initial state. -/
def run (evs : List Ev) : ClientState :=
  runFrom initClient evs

/-- A non-terminal token frame. -/
def tokenFrame (t : String) : Frame := { token := some t }

/-- A terminal frame carrying the given sources and timestamps. -/
def doneFrame (ss : List Src) (ts : List TsSeg) : Frame :=
  { done := true, sources := some ss, timestamps := some ts }

/-- Event trace of the end-to-end streaming scenario of the spec. -/
def streamScenarioEvs : List Ev :=
  [.connectCall, .openFired, .send "Summarize" true,
   .frame (tokenFrame "Hel"), .frame (tokenFrame "lo"),
   .frame (doneFrame [] [])]

/-- C3: after sending and receiving the frames `token "Hel"`,
`token "lo"`, `done`, the committed assistant Message has content
exactly "Hello", the accumulator (ref buffer and render snapshot) is
empty afterward, streaming is off and the connection is closed. -/
theorem C3_streaming_roundtrip :
    (run streamScenarioEvs).messages =
      [{ role := .assistant, content := "Hello", sources := some [] }] ∧
    (run streamScenarioEvs).streamingRef = "" ∧
    (run streamScenarioEvs).streamingContent = "" ∧
    (run streamScenarioEvs).isStreaming = false ∧
    (run streamScenarioEvs).wsReady = some .CLOSED ∧
    (run streamScenarioEvs).liveCount = 0 ∧
    (run streamScenarioEvs).sentFrames = [("Summarize", true)] := by
  refine ⟨by decide, by decide, by decide, by decide, by decide, by decide, by decide⟩

/-- C5: a terminal frame arriving while the accumulated text is empty
or whitespace-only commits nothing: `handleComplete` leaves the state
completely unchanged, and at the frame level the message log and the
error slot are untouched (no error is raised). -/
theorem C5_no_partial_commit (st : ClientState) (resp : CompleteResponse)
    (f : Frame) (hbuf : jsTrim st.streamingRef = "")
    (hdone : f.done = true) (herr : frameErr f = none) :
    handleComplete st resp = st ∧
    (step st (.frame f)).messages = st.messages ∧
    (step st (.frame f)).errorMsg = st.errorMsg := by
  have hc : handleComplete st resp = st := by
    unfold handleComplete
    simp [hbuf]
  refine ⟨hc, ?_, ?_⟩ <;>
  · unfold step
    by_cases hws : st.wsReady = some ReadyState.OPEN
    · simp only [hws, if_pos rfl]
      unfold onmessage
      rw [herr]
      cases htok : f.token with
      | none =>
        simp only [hdone, if_pos rfl]
        unfold handleComplete closeSocket
        simp [hbuf, hws]
      | some t =>
        simp only [hdone, htok, Bool.not_true, Bool.false_and, if_false]
        unfold handleComplete closeSocket
        simp [hbuf, hws]
    · simp [hws]

/-- Witness for C5 at a whitespace-only buffer and a plain terminal frame. -/
theorem C5_no_partial_commit_witness :
    handleComplete { initClient with streamingRef := "  " } { sources := [], timestamps := [] }
      = { initClient with streamingRef := "  " } ∧
    (step { initClient with streamingRef := "  " } (.frame (doneFrame [] []))).messages
      = ({ initClient with streamingRef := "  " } : ClientState).messages ∧
    (step { initClient with streamingRef := "  " } (.frame (doneFrame [] []))).errorMsg
      = ({ initClient with streamingRef := "  " } : ClientState).errorMsg :=
  C5_no_partial_commit { initClient with streamingRef := "  " }
    { sources := [], timestamps := [] } (doneFrame [] [])
    (by decide) (by decide) (by decide)

/-! ## Single-connection invariant (useWebSocket.ts) -/

/-- Number of live sockets a well-formed state should hold: one exactly
when the ref holds a socket that has not been closed. -/
def okCount (st : ClientState) : Nat :=
  match st.wsReady with
  | some .CONNECTING => 1
  | some .OPEN => 1
  | _ => 0

/-- The connection-ownership invariant: the count of created-and-not-yet
closed sockets always equals `okCount`, hence is at most one. -/
def ConnInv (st : ClientState) : Prop :=
  st.liveCount = okCount st

theorem connInv_init : ConnInv initClient := rfl

theorem okCount_handleError (st : ClientState) (e : String) :
    okCount (handleError st e) = okCount st := rfl

theorem connInv_connect (st : ClientState) (h : ConnInv st) :
    ConnInv (connect st) := by
  unfold ConnInv connect okCount at *
  cases hws : st.wsReady with
  | none => simp [hws] at h ⊢; omega
  | some rs => cases rs <;> simp [hws] at h ⊢ <;> omega

theorem connInv_closeSocket (st : ClientState) (h : ConnInv st) :
    ConnInv (closeSocket st) := by
  unfold ConnInv closeSocket okCount at *
  cases hws : st.wsReady with
  | none => simpa [hws] using h
  | some rs => cases rs <;> simp [hws] at h ⊢ <;> omega

theorem connInv_sendMessage (st : ClientState) (m : String) (its : Bool)
    (h : ConnInv st) : ConnInv (sendMessage st m its).1 := by
  have h1 : ConnInv (if st.wsReady ≠ some .OPEN then connect st else st) := by
    split
    · exact connInv_connect st h
    · exact h
  unfold sendMessage
  set st1 := if st.wsReady ≠ some .OPEN then connect st else st with hst1
  unfold ConnInv okCount at h1 ⊢
  cases hws : st1.wsReady with
  | none => simpa [hws, handleError] using h1
  | some rs => cases rs <;> simp [hws, handleError] at h1 ⊢ <;> omega

theorem connInv_onmessage (st : ClientState) (f : Frame) (h : ConnInv st) :
    ConnInv (onmessage st f) := by
  unfold onmessage
  cases frameErr f with
  | some e =>
    simp only
    apply connInv_closeSocket
    unfold ConnInv okCount at *
    simpa [handleError] using h
  | none =>
    simp only
    have h1 : ConnInv (match f.token with
        | some t => if !f.done && t.length > 0 then handleMessage st t else st
        | none => st) := by
      cases f.token with
      | none => exact h
      | some t =>
        simp only
        split
        · unfold ConnInv okCount handleMessage at *
          simpa using h
        · exact h
    split
    · apply connInv_closeSocket
      unfold ConnInv okCount handleComplete at *
      split <;> simpa using h1
    · exact h1

theorem connInv_onopenFired (st : ClientState) (h : ConnInv st) :
    ConnInv (onopenFired st) := by
  unfold onopenFired
  cases hws : st.wsReady with
  | none => exact h
  | some rs =>
    cases rs with
    | CONNECTING =>
      cases hoh : st.openHandler with
      | installedByConnect =>
        unfold ConnInv okCount at h ⊢
        rw [hws] at h
        exact h
      | queuedSend m its =>
        unfold ConnInv okCount at h ⊢
        rw [hws] at h
        exact h
    | OPEN => exact h
    | CLOSED => exact h

theorem connInv_onerrorFired (st : ClientState) (h : ConnInv st) :
    ConnInv (onerrorFired st) := by
  unfold onerrorFired
  split
  · unfold ConnInv okCount handleError at *
    simpa using h
  · exact h

theorem connInv_oncloseFired (st : ClientState) (h : ConnInv st) :
    ConnInv (oncloseFired st) := by
  unfold ConnInv oncloseFired okCount at *
  cases hws : st.wsReady with
  | none => simpa [hws] using h
  | some rs => cases rs <;> simp [hws] at h ⊢ <;> omega

theorem connInv_disconnect (st : ClientState) (h : ConnInv st) :
    ConnInv (disconnect st) := by
  have h1 := connInv_closeSocket st h
  unfold ConnInv okCount disconnect closeSocket at *
  cases hws : st.wsReady with
  | none => simpa [hws] using h
  | some rs => cases rs <;> simp [hws] at h h1 ⊢ <;> omega

theorem connInv_handleSubmit (st : ClientState) (h : ConnInv st) :
    ConnInv (handleSubmit st) := by
  unfold handleSubmit
  split
  · exact h
  · simp only
    have h1 : ConnInv { st with
        messages := st.messages ++
          [{ role := .user, content := jsTrim st.inputField, sources := none }],
        errorMsg := none, streamingContent := "" } := by
      unfold ConnInv okCount at *
      simpa using h
    have h2 := connInv_sendMessage _ (jsTrim st.inputField) true h1
    split
    · unfold ConnInv okCount at *
      simpa using h2
    · exact h2

theorem connInv_step (st : ClientState) (e : Ev) (h : ConnInv st) :
    ConnInv (step st e) := by
  cases e with
  | connectCall => exact connInv_connect st h
  | send m its => exact connInv_sendMessage st m its h
  | submit => exact connInv_handleSubmit st h
  | openFired => exact connInv_onopenFired st h
  | closeFired => exact connInv_oncloseFired st h
  | errorFired => exact connInv_onerrorFired st h
  | frame f =>
    show ConnInv (if st.wsReady = some ReadyState.OPEN then onmessage st f else st)
    split
    · exact connInv_onmessage st f h
    · exact h
  | disconnectCall => exact connInv_disconnect st h

theorem connInv_runFrom (st : ClientState) (evs : List Ev) (h : ConnInv st) :
    ConnInv (runFrom st evs) := by
  induction evs generalizing st with
  | nil => exact h
  | cons e evs ih => exact ih (step st e) (connInv_step st e h)

/-- C6: `connect` is a no-op whenever a connection object already
exists, even one not yet open, and consequently every reachable state
holds at most one live transport connection — in particular no event
sequence (including a send issued twice in rapid succession while
streaming) ever produces two simultaneous live sockets. -/
theorem C6_single_connection :
    (∀ evs : List Ev, (run evs).liveCount ≤ 1) ∧
    (∀ st : ClientState, st.wsReady.isSome → connect st = st) := by
  constructor
  · intro evs
    have h := connInv_runFrom initClient evs connInv_init
    unfold ConnInv okCount at h
    show (runFrom initClient evs).liveCount ≤ 1
    rw [h]
    split <;> omega
  · intro st hsome
    unfold connect
    simp [hsome]

/-- Witness for C6: at most one live socket along a trace that sends
twice while streaming, and `connect` is a no-op on a concrete state
already holding a connecting socket. -/
theorem C6_single_connection_witness :
    (run [.connectCall, .openFired, .send "a" true, .send "b" true,
          .connectCall]).liveCount ≤ 1 ∧
    connect { initClient with wsReady := some .CONNECTING, liveCount := 1 } =
      { initClient with wsReady := some .CONNECTING, liveCount := 1 } :=
  ⟨C6_single_connection.1 _,
   C6_single_connection.2 { initClient with wsReady := some .CONNECTING, liveCount := 1 }
     (by decide)⟩

/-! ## Accumulator persistence across turns (C2) -/

theorem mk_append (a b : List Char) :
    String.mk a ++ String.mk b = String.mk (a ++ b) := rfl

theorem strAppend_assoc (a b c : String) : a ++ b ++ c = a ++ (b ++ c) := by
  obtain ⟨la⟩ := a
  obtain ⟨lb⟩ := b
  obtain ⟨lc⟩ := c
  rw [mk_append, mk_append, mk_append, mk_append, List.append_assoc]

theorem strAppend_empty (a : String) : a ++ "" = a := by
  obtain ⟨la⟩ := a
  show String.mk la ++ String.mk [] = String.mk la
  rw [mk_append, List.append_nil]

theorem strLen_zero {t : String} (h : t.length = 0) : t = "" := by
  obtain ⟨l⟩ := t
  cases l with
  | nil => rfl
  | cons c cs => simp [String.length] at h

/-- Concatenation of a list of token strings in arrival order. -/
def concatTokens : List String → String
  | [] => ""
  | t :: ts => t ++ concatTokens ts

theorem closeSocket_messages (st : ClientState) :
    (closeSocket st).messages = st.messages := by
  unfold closeSocket
  split
  · split <;> rfl
  · rfl

theorem closeSocket_streamingRef (st : ClientState) :
    (closeSocket st).streamingRef = st.streamingRef := by
  unfold closeSocket
  split
  · split <;> rfl
  · rfl

theorem runFrom_append (st : ClientState) (l1 l2 : List Ev) :
    runFrom st (l1 ++ l2) = runFrom (runFrom st l1) l2 := by
  simp [runFrom, List.foldl_append]

/-- Delivering a list of token frames on an open socket keeps the
socket open and the message log unchanged, and appends exactly the
concatenation of the non-empty tokens (empty tokens are filtered by the
handler but contribute nothing) to the ref buffer. -/
theorem tokenStep_fields (st : ClientState) (t : String)
    (h : st.wsReady = some .OPEN) :
    (step st (.frame (tokenFrame t))).wsReady = some .OPEN ∧
    (step st (.frame (tokenFrame t))).streamingRef = st.streamingRef ++ t ∧
    (step st (.frame (tokenFrame t))).messages = st.messages := by
  have hred : step st (.frame (tokenFrame t)) =
      (if t.length > 0 then handleMessage st t else st) := by
    show (if st.wsReady = some ReadyState.OPEN then onmessage st (tokenFrame t) else st) = _
    rw [h, if_pos rfl]
    unfold onmessage frameErr tokenFrame
    simp
  rw [hred]
  by_cases ht : t.length > 0
  · rw [if_pos ht]
    exact ⟨h, rfl, rfl⟩
  · rw [if_neg ht]
    have ht0 : t = "" := strLen_zero (by omega)
    subst ht0
    exact ⟨h, (strAppend_empty _).symm, rfl⟩

theorem tokensRun (ts : List String) (st : ClientState)
    (h : st.wsReady = some .OPEN) :
    (runFrom st (ts.map (fun t => Ev.frame (tokenFrame t)))).wsReady = some .OPEN ∧
    (runFrom st (ts.map (fun t => Ev.frame (tokenFrame t)))).streamingRef =
      st.streamingRef ++ concatTokens ts ∧
    (runFrom st (ts.map (fun t => Ev.frame (tokenFrame t)))).messages = st.messages := by
  induction ts generalizing st with
  | nil =>
    refine ⟨h, ?_, rfl⟩
    simp [runFrom, concatTokens, strAppend_empty]
  | cons t ts ih =>
    obtain ⟨hw1, hr1, hm1⟩ := tokenStep_fields st t h
    obtain ⟨ihw, ihr, ihm⟩ := ih (step st (.frame (tokenFrame t))) hw1
    have hsplit : runFrom st (List.map (fun t => Ev.frame (tokenFrame t)) (t :: ts)) =
        runFrom (step st (.frame (tokenFrame t)))
          (List.map (fun t => Ev.frame (tokenFrame t)) ts) := rfl
    refine ⟨?_, ?_, ?_⟩
    · rw [hsplit]
      exact ihw
    · rw [hsplit, ihr, hr1, strAppend_assoc]
      rfl
    · rw [hsplit, ihm, hm1]

/-- Trace with a connection drop between two streaming turns: turn 1
accumulates "Hel", "lo" and is never completed, the socket closes, and
turn 2 streams "X" and completes. -/
def interruptedTurnsTrace : List Ev :=
  [.connectCall, .openFired, .send "q1" true,
   .frame (tokenFrame "Hel"), .frame (tokenFrame "lo"),
   .closeFired,
   .send "q2" true, .openFired, .frame (tokenFrame "X"),
   .frame (doneFrame [] [])]

/-- C2 counterexample: the claim that no token text accumulated during
turn 1 appears in the Message committed at the end of turn 2 is false:
after a close between the turns, the Message committed at the end of
turn 2 has content "HelloX" — the turn-1 text "Hello" (starting with
the turn-1 token "Hel") followed by the turn-2 token "X". -/
theorem C2_cross_turn_leak_cex :
    (run interruptedTurnsTrace).messages =
      [{ role := .assistant, content := "HelloX", sources := some [] }] ∧
    "HelloX" = "Hel" ++ "loX" := by
  exact ⟨by decide, by decide⟩

/-- Events of a complete turn started on a closed (absent) connection:
send, open, a list of token frames, terminal frame. -/
def turnEvs (m : String) (ts : List String) : List Ev :=
  [.send m true, .openFired] ++ ts.map (fun t => Ev.frame (tokenFrame t)) ++
    [.frame (doneFrame [] [])]

/-- C2 amended: closing while streaming commits no partial message and
leaves the buffer untouched, but the in-flight buffer is NOT discarded:
whatever text it holds persists into the next turn, whose committed
Message content is the turn-1 residue concatenated with the turn-2
tokens. -/
theorem C2_residue_prepended (st : ClientState) (m : String) (ts : List String)
    (hws : st.wsReady = none)
    (hne : jsTrim (st.streamingRef ++ concatTokens ts) ≠ "") :
    (runFrom st (turnEvs m ts)).messages =
      st.messages ++
        [{ role := .assistant, content := st.streamingRef ++ concatTokens ts,
           sources := some [] }] ∧
    (∀ st2 : ClientState, (step st2 .closeFired).messages = st2.messages ∧
      (step st2 .closeFired).streamingRef = st2.streamingRef) := by
  constructor
  · have h1 : runFrom st [Ev.send m true, Ev.openFired] =
        { st with wsReady := some .OPEN, openHandler := .queuedSend m true,
                  liveCount := st.liveCount + 1, isStreaming := true,
                  sentFrames := st.sentFrames ++ [(m, true)] } := by
      show step (step st (.send m true)) .openFired = _
      have hsend : step st (.send m true) =
          { st with wsReady := some .CONNECTING, openHandler := .queuedSend m true,
                    liveCount := st.liveCount + 1 } := by
        show (sendMessage st m true).1 = _
        unfold sendMessage connect
        rw [hws]
        simp
      rw [hsend]
      unfold step onopenFired
      simp
    have hsplit : runFrom st (turnEvs m ts) =
        step (runFrom (runFrom st [Ev.send m true, Ev.openFired])
          (ts.map (fun t => Ev.frame (tokenFrame t)))) (.frame (doneFrame [] [])) := by
      unfold turnEvs
      rw [runFrom_append, runFrom_append]
      rfl
    rw [hsplit, h1]
    obtain ⟨hw2, hr2, hm2⟩ := tokensRun ts
      { st with wsReady := some .OPEN, openHandler := .queuedSend m true,
                liveCount := st.liveCount + 1, isStreaming := true,
                sentFrames := st.sentFrames ++ [(m, true)] } rfl
    set stc := runFrom
      { st with wsReady := some .OPEN, openHandler := .queuedSend m true,
                liveCount := st.liveCount + 1, isStreaming := true,
                sentFrames := st.sentFrames ++ [(m, true)] }
      (ts.map (fun t => Ev.frame (tokenFrame t))) with hstc
    have hfin : step stc (.frame (doneFrame [] [])) =
        closeSocket (handleComplete { stc with isStreaming := false }
          { sources := [], timestamps := [] }) := by
      show (if stc.wsReady = some ReadyState.OPEN
            then onmessage stc (doneFrame [] []) else stc) = _
      rw [hw2, if_pos rfl]
      unfold onmessage frameErr doneFrame
      simp
      rw [hw2]
    rw [hfin, closeSocket_messages]
    unfold handleComplete
    have hr2s : ({ stc with isStreaming := false } : ClientState).streamingRef =
        st.streamingRef ++ concatTokens ts := hr2
    rw [if_neg (by rw [hr2s]; exact hne)]
    simp only
    rw [hr2s]
    have hm2s : ({ stc with isStreaming := false } : ClientState).messages = st.messages := hm2
    rw [hm2s]
  · intro st2
    unfold step oncloseFired
    cases st2.wsReady with
    | none => exact ⟨rfl, rfl⟩
    | some rs => exact ⟨rfl, rfl⟩

/-- Witness for the amended C2 at a concrete residue "Hello" and a
single turn-2 token "X": the committed message is "HelloX". -/
theorem C2_residue_prepended_witness :
    (runFrom { initClient with streamingRef := "Hello" } (turnEvs "q2" ["X"])).messages =
      [{ role := .assistant, content := "Hello" ++ concatTokens ["X"],
         sources := some [] }] ∧
    (step { initClient with streamingRef := "Hello" } .closeFired).streamingRef = "Hello" := by
  constructor
  · exact (C2_residue_prepended { initClient with streamingRef := "Hello" } "q2" ["X"]
      (by decide) (by decide)).1
  · exact ((C2_residue_prepended { initClient with streamingRef := "Hello" } "q2" ["X"]
      (by decide) (by decide)).2 { initClient with streamingRef := "Hello" }).2

/-! ## Transport-open handling (C7) -/

/-- C7 counterexample: the claim that on every transport-open event the
client marks connected=true — including when a send was issued while
Connecting — is false: after connect, a send while CONNECTING and the
open event, the queued request has been sent and streaming is marked,
but the connected flag is still false, because the CONNECTING branch of
`sendMessage` replaced the `onopen` handler and the replacement never
sets the connected flag. -/
theorem C7_open_connected_cex :
    (run [.connectCall, .send "hi" true, .openFired]).isConnected = false ∧
    (run [.connectCall, .send "hi" true, .openFired]).isStreaming = true ∧
    (run [.connectCall, .send "hi" true, .openFired]).sentFrames = [("hi", true)] ∧
    (run [.connectCall, .send "hi" true, .openFired]).wsReady = some .OPEN := by
  exact ⟨by decide, by decide, by decide, by decide⟩

/-- C7 amended: on a transport-open event with the default handler the
client transitions to Open and marks connected=true; when a send was
queued while Connecting, the open event transitions to Open, sends the
single queued request and marks Streaming, but leaves the connected
flag unchanged (it is not set by this open event). -/
theorem C7_open_behaviour (st : ClientState)
    (hws : st.wsReady = some .CONNECTING) :
    (st.openHandler = .installedByConnect →
      (step st .openFired).isConnected = true ∧
      (step st .openFired).wsReady = some .OPEN) ∧
    (∀ m its, st.openHandler = .queuedSend m its →
      (step st .openFired).isStreaming = true ∧
      (step st .openFired).sentFrames = st.sentFrames ++ [(m, its)] ∧
      (step st .openFired).isConnected = st.isConnected ∧
      (step st .openFired).wsReady = some .OPEN) := by
  constructor
  · intro hh
    unfold step onopenFired
    rw [hws, hh]
    exact ⟨rfl, rfl⟩
  · intro m its hh
    unfold step onopenFired
    rw [hws, hh]
    exact ⟨rfl, rfl, rfl, rfl⟩

/-- A state holding a CONNECTING socket with the default open handler. -/
def stConnDefault : ClientState :=
  { initClient with wsReady := some .CONNECTING, liveCount := 1 }

/-- A CONNECTING state whose open handler was replaced by a queued send. -/
def stConnQueued : ClientState :=
  { stConnDefault with openHandler := .queuedSend "hi" true }

/-- Witness for the amended C7 at two concrete CONNECTING states, one
with the default handler and one with a queued send. -/
theorem C7_open_behaviour_witness :
    (step stConnDefault .openFired).isConnected = true ∧
    (step stConnQueued .openFired).isStreaming = true ∧
    (step stConnQueued .openFired).isConnected = false := by
  refine ⟨?_, ?_, ?_⟩
  · exact ((C7_open_behaviour stConnDefault rfl).1 rfl).1
  · exact ((C7_open_behaviour stConnQueued rfl).2 "hi" true rfl).1
  · exact ((C7_open_behaviour stConnQueued rfl).2 "hi" true rfl).2.2.1

/-! ## Error-frame handling (C8) -/

/-- Trace reaching an error frame with "Hel" accumulated. -/
def errorFrameTrace : List Ev :=
  [.connectCall, .openFired, .send "q" true, .frame (tokenFrame "Hel"),
   .frame { error := some "boom" }]

/-- C8 counterexample: the claim that an inbound error frame discards
the current accumulation is false: after an error frame the error is
surfaced, streaming is off, the render snapshot is cleared and the
socket closed, but the accumulation buffer still holds "Hel". -/
theorem C8_error_discard_cex :
    (run errorFrameTrace).errorMsg = some "boom" ∧
    (run errorFrameTrace).isStreaming = false ∧
    (run errorFrameTrace).streamingContent = "" ∧
    (run errorFrameTrace).wsReady = some .CLOSED ∧
    (run errorFrameTrace).streamingRef = "Hel" := by
  exact ⟨by decide, by decide, by decide, by decide, by decide⟩

/-- C8 amended: for every inbound error frame the client surfaces the
error message, sets Streaming=false, clears the render snapshot and
closes the connection, the message log is untouched and no further
frames of the exchange are processed — but the accumulation buffer
retains its text (it is not discarded). -/
theorem C8_error_frame (st : ClientState) (f : Frame) (e : String)
    (hws : st.wsReady = some .OPEN) (herr : frameErr f = some e) :
    (step st (.frame f)).errorMsg = some e ∧
    (step st (.frame f)).isStreaming = false ∧
    (step st (.frame f)).streamingContent = "" ∧
    (step st (.frame f)).wsReady = some .CLOSED ∧
    (step st (.frame f)).streamingRef = st.streamingRef ∧
    (step st (.frame f)).messages = st.messages ∧
    (∀ f2, step (step st (.frame f)) (.frame f2) = step st (.frame f)) := by
  have hred : step st (.frame f) =
      closeSocket { handleError st e with isStreaming := false } := by
    show (if st.wsReady = some ReadyState.OPEN then onmessage st f else st) = _
    rw [hws, if_pos rfl]
    unfold onmessage
    rw [herr]
  have hclose : closeSocket { handleError st e with isStreaming := false } =
      { st with errorMsg := some e, streamingContent := "", isStreaming := false,
                wsReady := some .CLOSED, liveCount := st.liveCount - 1 } := by
    unfold closeSocket handleError
    simp only
    rw [hws]
    simp
  rw [hred, hclose]
  refine ⟨rfl, rfl, rfl, rfl, rfl, rfl, ?_⟩
  intro f2
  unfold step
  simp

/-- State just before the error frame of `errorFrameTrace`. -/
def stErrPre : ClientState :=
  run [.connectCall, .openFired, .send "q" true, .frame (tokenFrame "Hel")]

/-- Witness for the amended C8 at the concrete pre-error state. -/
theorem C8_error_frame_witness :
    (step stErrPre (.frame { error := some "boom" })).errorMsg = some "boom" ∧
    (step stErrPre (.frame { error := some "boom" })).streamingRef = "Hel" ∧
    (step stErrPre (.frame { error := some "boom" })).wsReady = some .CLOSED := by
  have h := C8_error_frame stErrPre { error := some "boom" } "boom"
    (by decide) (by decide)
  exact ⟨h.1, h.2.2.2.2.1, h.2.2.2.1⟩

/-! ## Send while Connecting (C10) -/

/-- While no open event has fired, a state whose socket is CONNECTING
or absent stays that way under any event and transmits nothing; the
error slot is only ever preserved, cleared, or set to the generic
transport error surfaced by `ws.onerror` — never to a send-specific
failure. -/
theorem pending_preserved (st : ClientState) (e : Ev)
    (h : st.wsReady = some .CONNECTING ∨ st.wsReady = none)
    (hne : e ≠ Ev.openFired) :
    ((step st e).wsReady = some .CONNECTING ∨ (step st e).wsReady = none) ∧
    (step st e).sentFrames = st.sentFrames ∧
    ((step st e).errorMsg = st.errorMsg ∨ (step st e).errorMsg = none ∨
      (step st e).errorMsg = some "WebSocket connection error") := by
  cases e with
  | connectCall =>
    simp only [step]
    unfold connect
    rcases h with h | h <;> simp [h]
  | send m its =>
    simp only [step]
    unfold sendMessage connect
    rcases h with h | h <;> simp [h]
  | submit =>
    simp only [step]
    unfold handleSubmit
    split
    · exact ⟨h, rfl, Or.inl rfl⟩
    · unfold sendMessage connect
      rcases h with h | h <;> simp [h]
  | openFired => exact absurd rfl hne
  | closeFired =>
    simp only [step]
    unfold oncloseFired
    rcases h with h | h <;> simp [h]
  | errorFired =>
    simp only [step]
    unfold onerrorFired handleError
    rcases h with h | h <;> simp [h]
  | frame f =>
    simp only [step]
    rcases h with h | h <;> simp [h]
  | disconnectCall =>
    simp only [step]
    unfold disconnect closeSocket
    rcases h with h | h <;> simp [h]

/-- Iterated version of `pending_preserved` over an open-free event
sequence. -/
theorem pending_run (evs : List Ev) (st : ClientState)
    (h : st.wsReady = some .CONNECTING ∨ st.wsReady = none)
    (hne : ∀ e ∈ evs, e ≠ Ev.openFired) :
    (runFrom st evs).sentFrames = st.sentFrames ∧
    ((runFrom st evs).errorMsg = st.errorMsg ∨ (runFrom st evs).errorMsg = none ∨
      (runFrom st evs).errorMsg = some "WebSocket connection error") := by
  induction evs generalizing st with
  | nil => exact ⟨rfl, Or.inl rfl⟩
  | cons e evs ih =>
    obtain ⟨hp, hf, he⟩ := pending_preserved st e h (hne e (by simp))
    obtain ⟨ihf, ihe⟩ := ih (step st e) hp (fun x hx => hne x (by simp [hx]))
    refine ⟨?_, ?_⟩
    · show (runFrom (step st e) evs).sentFrames = st.sentFrames
      rw [ihf, hf]
    · show (runFrom (step st e) evs).errorMsg = st.errorMsg ∨
        (runFrom (step st e) evs).errorMsg = none ∨
        (runFrom (step st e) evs).errorMsg = some "WebSocket connection error"
      rcases ihe with h1 | h1 | h1
      · rw [h1]
        exact he
      · exact Or.inr (Or.inl h1)
      · exact Or.inr (Or.inr h1)

/-- Trace in which a send is queued while Connecting and the transport
then fails (error event) without the open event ever firing. -/
def errorBeforeOpenTrace : List Ev :=
  [.connectCall, .send "hi" true, .errorFired]

/-- C10 counterexample: the claim that no failure is ever reported to
the caller when the open event never fires is false: after a send
queued while Connecting returned true, the socket's error event fires
before any open, nothing was ever transmitted, yet the caller's error
slot now holds "WebSocket connection error". -/
theorem C10_no_failure_cex :
    (sendMessage (run [Ev.connectCall]) "hi" true).2 = true ∧
    (run errorBeforeOpenTrace).errorMsg = some "WebSocket connection error" ∧
    (run errorBeforeOpenTrace).sentFrames = [] ∧
    (∀ e ∈ errorBeforeOpenTrace, e ≠ Ev.openFired) := by
  exact ⟨by decide, by decide, by decide, by decide⟩

/-- C10 amended: a send issued while the connection is Connecting
returns true immediately although nothing has been transmitted (the
request is only queued on the open handler, with no send-level failure
reported); the queued frame is transmitted exactly when the open event
fires; while no open event fires nothing is transmitted and the caller
never receives a send-specific failure — the error slot can only keep
its value, be cleared, or receive the generic transport error
"WebSocket connection error" from the socket's error handler; and the
caller treats the true result as success, clearing the input field. -/
theorem C10_connecting_send :
    (∀ (st : ClientState) (m : String) (its : Bool),
      st.wsReady = some .CONNECTING →
        (sendMessage st m its).2 = true ∧
        (sendMessage st m its).1.sentFrames = st.sentFrames ∧
        (sendMessage st m its).1.errorMsg = st.errorMsg ∧
        (sendMessage st m its).1.openHandler = .queuedSend m its) ∧
    (∀ (st : ClientState) (m : String) (its : Bool),
      st.wsReady = some .CONNECTING → st.openHandler = .queuedSend m its →
        (step st .openFired).sentFrames = st.sentFrames ++ [(m, its)]) ∧
    (∀ (st : ClientState) (evs : List Ev),
      (st.wsReady = some .CONNECTING ∨ st.wsReady = none) →
      (∀ e ∈ evs, e ≠ Ev.openFired) →
        (runFrom st evs).sentFrames = st.sentFrames ∧
        ((runFrom st evs).errorMsg = st.errorMsg ∨
          (runFrom st evs).errorMsg = none ∨
          (runFrom st evs).errorMsg = some "WebSocket connection error")) ∧
    (∀ st : ClientState,
      st.wsReady = some .CONNECTING → jsTrim st.inputField ≠ "" →
      st.isStreaming = false →
        (handleSubmit st).inputField = "" ∧
        (handleSubmit st).sentFrames = st.sentFrames) := by
  refine ⟨?_, ?_, ?_, ?_⟩
  · intro st m its h
    unfold sendMessage connect
    simp [h]
  · intro st m its h hh
    unfold step onopenFired
    rw [h, hh]
  · intro st evs h hne
    exact pending_run evs st h hne
  · intro st h hin hstr
    unfold handleSubmit sendMessage connect
    simp [h, hin, hstr]

/-- Witness for the amended C10 at concrete CONNECTING states. -/
theorem C10_connecting_send_witness :
    (sendMessage stConnDefault "hello" true).2 = true ∧
    (sendMessage stConnDefault "hello" true).1.sentFrames = [] ∧
    (step stConnQueued .openFired).sentFrames = [("hi", true)] ∧
    (runFrom stConnQueued [.errorFired, .closeFired, .frame (tokenFrame "x")]).sentFrames
      = [] ∧
    (handleSubmit { stConnDefault with inputField := "hi there" }).inputField = "" := by
  refine ⟨?_, ?_, ?_, ?_, ?_⟩
  · exact (C10_connecting_send.1 stConnDefault "hello" true rfl).1
  · exact (C10_connecting_send.1 stConnDefault "hello" true rfl).2.1
  · exact C10_connecting_send.2.1 stConnQueued "hi" true rfl rfl
  · exact (C10_connecting_send.2.2.1 stConnQueued
      [.errorFired, .closeFired, .frame (tokenFrame "x")]
      (Or.inl rfl) (by decide)).1
  · exact (C10_connecting_send.2.2.2 { stConnDefault with inputField := "hi there" }
      rfl (by decide) rfl).1

/-! ## Document status poller (App.tsx polling useEffect) -/

/-- A document record (types.ts, `Document`). -/
structure Doc where
  id : String
  filename : String := ""
  file_size : Nat := 0
  summary : Option String := none
  processed : Bool
  chunk_count : Nat := 0
deriving DecidableEq

/-- State the polling effect reads and writes: the `documents`
collection and the `selectedDocument` reference. -/
structure PollSt where
  documents : List Doc
  selectedDocument : Option Doc
deriving DecidableEq

/-- The `unprocessedDocs` filter of the effect. -/
def unprocessedDocs (docs : List Doc) : List Doc :=
  docs.filter (fun d => !d.processed)

/-- Whether the effect installs an interval timer at all
(`if (unprocessedDocs.length === 0) return`). -/
def pollerInstalls (docs : List Doc) : Bool :=
  !((unprocessedDocs docs).length == 0)

/-- The `setDocuments(prev => prev.map(...))` update: replace every
entry whose id matches the updated record. -/
def replaceById (u : Doc) (docs : List Doc) : List Doc :=
  docs.map (fun d => if d.id = u.id then u else d)

/-- Body of the per-document loop iteration inside one interval tick:
query status (`oracle`, `none` = failed request, caught and skipped);
on a processed result, replace the record in the collection and, when
the document captured as selected matches, replace the selection. -/
def pollStep (oracle : String → Option Doc) (capturedSel : Option Doc)
    (st : PollSt) (d : Doc) : PollSt :=
  match oracle d.id with
  | none => st
  | some updated =>
    if updated.processed then
      { documents := replaceById updated st.documents,
        selectedDocument :=
          if capturedSel.map (fun s => s.id) = some updated.id then some updated
          else st.selectedDocument }
    else st

/-- One interval tick: iterate over the unprocessed documents captured
at effect creation, returning the new state and the list of document
ids that were queried this tick. -/
def pollCycle (oracle : String → Option Doc) (st : PollSt) : PollSt × List String :=
  ((unprocessedDocs st.documents).foldl (pollStep oracle st.selectedDocument) st,
   (unprocessedDocs st.documents).map (fun d => d.id))

theorem pollStep_none (oracle : String → Option Doc) (sel : Option Doc)
    (st : PollSt) (d : Doc) (h : oracle d.id = none) :
    pollStep oracle sel st d = st := by
  unfold pollStep
  rw [h]

theorem pollStep_some_unproc (oracle : String → Option Doc) (sel : Option Doc)
    (st : PollSt) (d u : Doc) (h : oracle d.id = some u)
    (hp : u.processed = false) :
    pollStep oracle sel st d = st := by
  unfold pollStep
  rw [h]
  simp [hp]

theorem pollStep_some_proc (oracle : String → Option Doc) (sel : Option Doc)
    (st : PollSt) (d u : Doc) (h : oracle d.id = some u)
    (hp : u.processed = true) :
    pollStep oracle sel st d =
      { documents := replaceById u st.documents,
        selectedDocument :=
          if sel.map (fun s => s.id) = some u.id then some u
          else st.selectedDocument } := by
  unfold pollStep
  rw [h]
  simp [hp]

theorem replaceById_ids (u : Doc) (docs : List Doc) :
    (replaceById u docs).map (fun d => d.id) = docs.map (fun d => d.id) := by
  induction docs with
  | nil => rfl
  | cons d ds ih =>
    unfold replaceById at ih ⊢
    by_cases hc : d.id = u.id
    · simp [ih, hc]
    · simp [ih, hc]

theorem pollStep_ids (oracle : String → Option Doc) (sel : Option Doc)
    (st : PollSt) (d : Doc) :
    ((pollStep oracle sel st d).documents).map (fun d => d.id) =
      st.documents.map (fun d => d.id) := by
  cases ho : oracle d.id with
  | none => rw [pollStep_none oracle sel st d ho]
  | some u =>
    cases hp : u.processed with
    | false => rw [pollStep_some_unproc oracle sel st d u ho hp]
    | true =>
      rw [pollStep_some_proc oracle sel st d u ho hp]
      exact replaceById_ids u st.documents

theorem pollFold_ids (oracle : String → Option Doc) (sel : Option Doc)
    (L : List Doc) (st : PollSt) :
    ((L.foldl (pollStep oracle sel) st).documents).map (fun d => d.id) =
      st.documents.map (fun d => d.id) := by
  induction L generalizing st with
  | nil => rfl
  | cons d L ih =>
    show ((L.foldl (pollStep oracle sel) (pollStep oracle sel st d)).documents).map
      (fun d => d.id) = _
    rw [ih (pollStep oracle sel st d), pollStep_ids]

theorem replaceById_target (u : Doc) (docs : List Doc) :
    ∀ x ∈ replaceById u docs, x.id = u.id → x = u := by
  intro x hx hid
  unfold replaceById at hx
  obtain ⟨orig, _, he⟩ := List.mem_map.mp hx
  by_cases hc : orig.id = u.id
  · rw [if_pos hc] at he
    exact he.symm
  · rw [if_neg hc] at he
    exact absurd (he ▸ hid) hc

theorem replaceById_keeps (u w : Doc) (tid : String) (docs : List Doc)
    (hne : u.id ≠ tid)
    (hP : ∀ x ∈ docs, x.id = tid → x = w) :
    ∀ x ∈ replaceById u docs, x.id = tid → x = w := by
  intro x hx hid
  unfold replaceById at hx
  obtain ⟨orig, hom, he⟩ := List.mem_map.mp hx
  by_cases hc : orig.id = u.id
  · rw [if_pos hc] at he
    exact absurd (he ▸ hid) hne
  · rw [if_neg hc] at he
    exact hP x (he ▸ hom) hid

theorem pollStep_keeps (oracle : String → Option Doc) (sel : Option Doc)
    (st : PollSt) (d' : Doc) (tid : String) (w : Doc)
    (hid : ∀ i dd, oracle i = some dd → dd.id = i)
    (hne : d'.id ≠ tid)
    (hP : ∀ x ∈ st.documents, x.id = tid → x = w) :
    ∀ x ∈ (pollStep oracle sel st d').documents, x.id = tid → x = w := by
  cases ho : oracle d'.id with
  | none => rw [pollStep_none oracle sel st d' ho]; exact hP
  | some u =>
    cases hp : u.processed with
    | false => rw [pollStep_some_unproc oracle sel st d' u ho hp]; exact hP
    | true =>
      rw [pollStep_some_proc oracle sel st d' u ho hp]
      have huid : u.id = d'.id := hid _ _ ho
      exact replaceById_keeps u w tid st.documents (huid ▸ hne) hP

theorem pollFold_keeps (oracle : String → Option Doc) (sel : Option Doc)
    (tid : String) (w : Doc)
    (hid : ∀ i dd, oracle i = some dd → dd.id = i) :
    ∀ (L : List Doc) (st : PollSt),
      (∀ x ∈ L, x.id ≠ tid) →
      (∀ x ∈ st.documents, x.id = tid → x = w) →
      ∀ x ∈ (L.foldl (pollStep oracle sel) st).documents, x.id = tid → x = w := by
  intro L
  induction L with
  | nil => intro st _ hP; exact hP
  | cons d' L ih =>
    intro st hL hP
    show ∀ x ∈ (L.foldl (pollStep oracle sel) (pollStep oracle sel st d')).documents,
      x.id = tid → x = w
    exact ih (pollStep oracle sel st d')
      (fun x hx => hL x (List.mem_cons_of_mem d' hx))
      (pollStep_keeps oracle sel st d' tid w hid
        (hL d' (List.mem_cons_self d' L)) hP)

theorem pollStep_sel (oracle : String → Option Doc) (sel : Option Doc)
    (st : PollSt) (d' : Doc) (tid : String)
    (hid : ∀ i dd, oracle i = some dd → dd.id = i)
    (hne : d'.id ≠ tid)
    (hsel : sel.map (fun s => s.id) = some tid) :
    (pollStep oracle sel st d').selectedDocument = st.selectedDocument := by
  cases ho : oracle d'.id with
  | none => rw [pollStep_none oracle sel st d' ho]
  | some u =>
    cases hp : u.processed with
    | false => rw [pollStep_some_unproc oracle sel st d' u ho hp]
    | true =>
      rw [pollStep_some_proc oracle sel st d' u ho hp]
      have huid : u.id = d'.id := hid _ _ ho
      have hcond : sel.map (fun s => s.id) ≠ some u.id := by
        rw [hsel, huid]
        intro hcc
        exact hne (Option.some.inj hcc).symm
      simp only [if_neg hcond]

theorem pollFold_sel (oracle : String → Option Doc) (sel : Option Doc)
    (tid : String)
    (hid : ∀ i dd, oracle i = some dd → dd.id = i)
    (hsel : sel.map (fun s => s.id) = some tid) :
    ∀ (L : List Doc) (st : PollSt),
      (∀ x ∈ L, x.id ≠ tid) →
      (L.foldl (pollStep oracle sel) st).selectedDocument = st.selectedDocument := by
  intro L
  induction L with
  | nil => intro st _; rfl
  | cons d' L ih =>
    intro st hL
    show (L.foldl (pollStep oracle sel) (pollStep oracle sel st d')).selectedDocument = _
    rw [ih (pollStep oracle sel st d') (fun x hx => hL x (List.mem_cons_of_mem d' hx))]
    exact pollStep_sel oracle sel st d' tid hid (hL d' (List.mem_cons_self d' L)) hsel

theorem pollFold_const (oracle : String → Option Doc) (sel : Option Doc)
    (hor : ∀ i, oracle i = none) :
    ∀ (L : List Doc) (st : PollSt), L.foldl (pollStep oracle sel) st = st := by
  intro L
  induction L with
  | nil => intro st; rfl
  | cons d' L ih =>
    intro st
    show L.foldl (pollStep oracle sel) (pollStep oracle sel st d') = st
    rw [pollStep_none oracle sel st d' (hor d'.id), ih]

/-- C9: when the poller observes a document transition from
unprocessed to processed, the document record in the collection is
replaced by the new object (matched by id), the selection reference is
replaced too when that document is selected, and no later cycle queries
that document again; when every known document is processed no polling
timer is installed at all; and a cycle whose status queries all fail
leaves the state unchanged, so polling continues identically in later
cycles. -/
theorem C9_status_poller :
    (∀ docs : List Doc, (∀ dd ∈ docs, dd.processed = true) →
      pollerInstalls docs = false) ∧
    (∀ (st : PollSt) (oracle : String → Option Doc), (∀ i, oracle i = none) →
      (pollCycle oracle st).1 = st ∧
      (pollCycle oracle st).2 = (unprocessedDocs st.documents).map (fun d => d.id)) ∧
    (∀ (st : PollSt) (oracle : String → Option Doc) (d u : Doc),
      (st.documents.map (fun x => x.id)).Nodup →
      (∀ i dd, oracle i = some dd → dd.id = i) →
      d ∈ st.documents → d.processed = false →
      oracle d.id = some u → u.processed = true →
      ((∀ x ∈ (pollCycle oracle st).1.documents, x.id = d.id → x = u) ∧
       u ∈ (pollCycle oracle st).1.documents ∧
       (st.selectedDocument = some d →
         (pollCycle oracle st).1.selectedDocument = some u) ∧
       (∀ oracle2, d.id ∉ (pollCycle oracle2 (pollCycle oracle st).1).2))) := by
  refine ⟨?_, ?_, ?_⟩
  · intro docs h
    unfold pollerInstalls unprocessedDocs
    have hnil : docs.filter (fun d => !d.processed) = [] := by
      rw [List.filter_eq_nil_iff]
      intro a ha
      simp [h a ha]
    rw [hnil]
    rfl
  · intro st oracle hor
    constructor
    · show (unprocessedDocs st.documents).foldl
        (pollStep oracle st.selectedDocument) st = st
      exact pollFold_const oracle st.selectedDocument hor _ st
    · rfl
  · intro st oracle d u hnd hid hmem hdp ho hup
    have hq : d ∈ unprocessedDocs st.documents := by
      unfold unprocessedDocs
      exact List.mem_filter.mpr ⟨hmem, by simp [hdp]⟩
    obtain ⟨q1, q2, hsplit⟩ := List.append_of_mem hq
    have hqn : ((unprocessedDocs st.documents).map (fun x => x.id)).Nodup :=
      ((List.filter_sublist st.documents).map (fun x => x.id)).nodup hnd
    rw [hsplit, List.map_append, List.map_cons] at hqn
    obtain ⟨hn1, hn2, hdisj⟩ := List.nodup_append.mp hqn
    have hd2 : d.id ∉ q2.map (fun x => x.id) := (List.nodup_cons.mp hn2).1
    have hq1 : ∀ x ∈ q1, x.id ≠ d.id := by
      intro x hx hxe
      exact hdisj (hxe ▸ List.mem_map_of_mem _ hx) (List.mem_cons_self _ _)
    have hq2 : ∀ x ∈ q2, x.id ≠ d.id := by
      intro x hx hxe
      exact hd2 (hxe ▸ List.mem_map_of_mem _ hx)
    have huid : u.id = d.id := hid _ _ ho
    set st1 := q1.foldl (pollStep oracle st.selectedDocument) st with hst1
    have hfold : (pollCycle oracle st).1 =
        q2.foldl (pollStep oracle st.selectedDocument)
          (pollStep oracle st.selectedDocument st1 d) := by
      show (unprocessedDocs st.documents).foldl
        (pollStep oracle st.selectedDocument) st = _
      rw [hsplit, List.foldl_append]
      rfl
    have hst2 : pollStep oracle st.selectedDocument st1 d =
        { documents := replaceById u st1.documents,
          selectedDocument :=
            if st.selectedDocument.map (fun s => s.id) = some u.id then some u
            else st1.selectedDocument } :=
      pollStep_some_proc _ _ _ _ _ ho hup
    have hA : ∀ x ∈ (pollCycle oracle st).1.documents, x.id = d.id → x = u := by
      rw [hfold, hst2]
      exact pollFold_keeps oracle st.selectedDocument d.id u hid q2 _ hq2
        (fun x hx hxid => replaceById_target u st1.documents x hx
          (hxid.trans huid.symm))
    have hids : (pollCycle oracle st).1.documents.map (fun x => x.id) =
        st.documents.map (fun x => x.id) := by
      show ((unprocessedDocs st.documents).foldl
        (pollStep oracle st.selectedDocument) st).documents.map (fun x => x.id) = _
      exact pollFold_ids oracle st.selectedDocument _ st
    have hBex : d.id ∈ (pollCycle oracle st).1.documents.map (fun x => x.id) := by
      rw [hids]
      exact List.mem_map_of_mem _ hmem
    obtain ⟨x, hxmem, hxid⟩ := List.mem_map.mp hBex
    have hB : u ∈ (pollCycle oracle st).1.documents := by
      have hxu := hA x hxmem hxid
      exact hxu ▸ hxmem
    have hC : st.selectedDocument = some d →
        (pollCycle oracle st).1.selectedDocument = some u := by
      intro hsel
      have hselmap : st.selectedDocument.map (fun s => s.id) = some d.id := by
        rw [hsel]
        rfl
      rw [hfold,
        pollFold_sel oracle st.selectedDocument d.id hid hselmap q2 _ hq2, hst2]
      simp only
      rw [if_pos (by rw [hselmap, huid])]
    refine ⟨hA, hB, hC, ?_⟩
    intro oracle2 hmem2
    have hmm : d.id ∈ (unprocessedDocs
        (pollCycle oracle st).1.documents).map (fun x => x.id) := hmem2
    obtain ⟨y, hymem, hyid⟩ := List.mem_map.mp hmm
    obtain ⟨hyin, hyun⟩ := List.mem_filter.mp hymem
    have hyu := hA y hyin hyid
    rw [hyu, hup] at hyun
    simp at hyun

/-- The unprocessed document "a" of the spec scenario. -/
def aDocUnproc : Doc := { id := "a", processed := false }

/-- A processed status result carrying the queried id. -/
def procAt (i : String) : Doc := { id := i, processed := true }

/-- A status oracle that reports every document as processed. -/
def oracleAll : String → Option Doc := fun i => some (procAt i)

/-- Poller state of the spec scenario: one unprocessed document "a",
currently selected. -/
def stA : PollSt := { documents := [aDocUnproc], selectedDocument := some aDocUnproc }

/-- Witness for C9 at the spec scenario `[{id:"a",processed:false}]`. -/
theorem C9_status_poller_witness :
    pollerInstalls [procAt "a"] = false ∧
    (pollCycle (fun _ => none) stA).1 = stA ∧
    (pollCycle oracleAll stA).1.selectedDocument = some (procAt "a") ∧
    procAt "a" ∈ (pollCycle oracleAll stA).1.documents ∧
    "a" ∉ (pollCycle oracleAll (pollCycle oracleAll stA).1).2 := by
  have hid : ∀ i dd, oracleAll i = some dd → dd.id = i := by
    intro i dd h
    rw [← Option.some.inj h]
    rfl
  have h3 := C9_status_poller.2.2 stA oracleAll aDocUnproc (procAt "a")
    (by decide) hid (by decide) rfl rfl rfl
  exact ⟨C9_status_poller.1 [procAt "a"] (by decide),
    (C9_status_poller.2.1 stA (fun _ => none) (fun _ => rfl)).1,
    h3.2.2.1 rfl, h3.2.1, h3.2.2.2 oracleAll⟩
